import Mathlib

/-!
Verification of the `terraform-provider-containerregistry` provider.

This file is a shallow embedding of the provider code under `internal/resources/compose`
(plus the companion `image` resource) into Lean 4, together with proofs of the stated
properties of the specification.  Each definition is translated from the corresponding
Go function; the source file and function are named in its doc comment.  Network calls
(registry HTTP requests, secret-store fetches) are represented by their results, passed
as explicit parameters, so that every operation becomes a pure function of its inputs.
-/

namespace TFProvider

/-- Models a `types.String` value of the terraform-plugin-framework: a string attribute
is either null, unknown (not yet computed), or a known string value. -/
inductive TFString where
  | null
  | unknown
  | value (s : String)
  deriving DecidableEq, Repr

/-- Models `types.String.ValueString()`: the known value, or `""` for null/unknown. -/
def TFString.valueString : TFString → String
  | .value s => s
  | _ => ""

/-- Models `!v.IsNull() && !v.IsUnknown()`. -/
def TFString.isKnownValue : TFString → Bool
  | .value _ => true
  | _ => false

/-- Models `UsernamePasswordModel` (internal/resources/image/models.go, shared shape of
the compose resource model): the four optional string fields of the
`auth.username_password` block. -/
structure UsernamePasswordModel where
  username : TFString
  password : TFString
  awsSecretsManager : TFString
  googleSecretManager : TFString
  deriving DecidableEq, Repr

/-- Models `AWSECRModel` (internal/resources/image/models.go). -/
structure AWSECRModel where
  profile : TFString
  deriving DecidableEq, Repr

/-- Models `AuthModel` (internal/resources/image/models.go): three optional variant
sub-blocks; a `none` field corresponds to a nil pointer in Go. The
`google_artifact_registry` block has no fields, so it is modelled by `Unit`. -/
structure AuthModel where
  awsEcr : Option AWSECRModel
  googleArtifactRegistry : Option Unit
  usernamePassword : Option UsernamePasswordModel
  deriving DecidableEq, Repr

/-- Models `ComposeResourceModel` (the model consumed by
internal/resources/compose/resource.go).  `labels` and `triggers` are `types.Map`
of strings, modelled as association lists; `auth` is an optional nested block. -/
structure ComposeResourceModel where
  id : TFString
  imageURI : TFString
  build : TFString
  labels : List (String × String)
  triggers : List (String × String)
  deleteImage : Bool
  auth : Option AuthModel
  sha256Digest : TFString
  deriving DecidableEq, Repr

/-- The classified failures of `getImageInfoFromRegistry`
(src/unnamed/part_002): HTTP 404, HTTP 401, or any other failure
(parse errors, other status codes, transport errors). -/
inductive InspectorError where
  | notFound (uri : String)
  | authError (registry : String)
  | other (msg : String)
  deriving DecidableEq, Repr

/-- Models the registry inspection result consumed by `Read`
(internal/resources/compose/resource.go): the `manifest_digest` entry (taken from the
`Docker-Content-Digest` response header of the top-level manifest fetch), the `digest`
entry (the config blob digest `manifest.Config.Digest`), and the observed image labels. -/
structure ImageInfo where
  manifestDigest : String
  configDigest : String
  labels : List (String × String)
  deriving DecidableEq, Repr

/-- Models the final result construction of `getImageInfoFromRegistry`
(src/unnamed/part_002, lines 260-268, together with the map-returning variant that sets
the keys `manifest_digest` and `digest`): the manifest digest is
`resp.Header.Get("Docker-Content-Digest")` of the top-level manifest response, the config
digest is `manifest.Config.Digest`, and the labels come from the config blob. -/
def mkImageInfo (dockerContentDigestHeader : String) (configDigest : String)
    (labels : List (String × String)) : ImageInfo :=
  { manifestDigest := dockerContentDigestHeader
    configDigest := configDigest
    labels := labels }

/-- Result of `Create` (internal/resources/compose/resource.go): the state written on
success (none when the operation aborts) and the fatal error diagnostics. -/
structure CreateResponse where
  state : Option ComposeResourceModel
  errors : List String
  deriving DecidableEq, Repr

/-- Models `(*ComposeResource).Create` (internal/resources/compose/resource.go,
lines 140-169).  The build-and-push step is represented by its result.  On success the
code executes `plan.ID = plan.ImageURI` and stores the plan; on failure it adds an
error diagnostic and stores nothing. -/
def composeCreate (plan : ComposeResourceModel) (buildAndPush : Except String Unit) :
    CreateResponse :=
  match buildAndPush with
  | .error e =>
      { state := none
        errors := ["Error building and pushing image: Could not build and push image "
          ++ plan.imageURI.valueString ++ ": " ++ e] }
  | .ok _ =>
      { state := some { plan with id := plan.imageURI }
        errors := [] }

/-- The attributes written by `ImportState` (internal/resources/compose/resource.go,
lines 315-351). -/
structure ImportResponse where
  imageURI : TFString
  id : TFString
  deleteImage : Bool
  deriving DecidableEq, Repr

/-- Models `(*ComposeResource).ImportState` (internal/resources/compose/resource.go,
lines 315-351): the import identifier becomes `image_uri`, a freshly generated UUID
(passed here as the parameter `freshUUID`, produced by `generateUUID`) becomes `id`,
and `delete_image` defaults to false. -/
def composeImportState (reqID : String) (freshUUID : String) : ImportResponse :=
  { imageURI := .value reqID
    id := .value freshUUID
    deleteImage := false }

/-- Result of `Read`: the refreshed state (`none` models
`resp.State.RemoveResource`) and the fatal error diagnostics. -/
structure ReadResponse where
  state : Option ComposeResourceModel
  errors : List String
  deriving DecidableEq, Repr

/-- Models the label-update block of `Read` (internal/resources/compose/resource.go,
lines 200-226): labels are overwritten from the registry only when the observed label
map is non-empty (the `ok && len(labels) > 0` guard). -/
def updateLabels (st : ComposeResourceModel) (info : ImageInfo) : ComposeResourceModel :=
  if info.labels.isEmpty then st else { st with labels := info.labels }

/-- Models the digest-update block of `Read` (internal/resources/compose/resource.go,
lines 228-242): the digest is overwritten with the manifest digest when non-empty,
otherwise with the config digest when non-empty, otherwise kept. -/
def updateDigest (st : ComposeResourceModel) (info : ImageInfo) : ComposeResourceModel :=
  if info.manifestDigest ≠ "" then { st with sha256Digest := .value info.manifestDigest }
  else if info.configDigest ≠ "" then { st with sha256Digest := .value info.configDigest }
  else st

/-- Models the success path of `Read` (internal/resources/compose/resource.go,
lines 200-246): the label update followed by the digest update; attributes other than
`labels` and `sha256Digest` are untouched. -/
def applyImageInfo (st : ComposeResourceModel) (info : ImageInfo) : ComposeResourceModel :=
  updateDigest (updateLabels st info) info

/-- Models `(*ComposeResource).Read` (internal/resources/compose/resource.go,
lines 171-246).  The registry inspection (`getImageInfoFromRegistry`) is represented by
its result.  On any inspector error the code logs a warning and calls
`resp.State.RemoveResource` without adding an error diagnostic; on success it applies
the observed labels and digest to the state. -/
def composeRead (st : ComposeResourceModel) (inspect : Except InspectorError ImageInfo) :
    ReadResponse :=
  match inspect with
  | .error _ => { state := none, errors := [] }
  | .ok info => { state := some (applyImageInfo st info), errors := [] }

/-- Result of `Delete`: whether `deleteImageFromRegistry` was invoked, plus the warning
and error diagnostics.  The surrounding framework removes the local resource record
exactly when `Delete` returns without an error diagnostic. -/
structure DeleteResponse where
  registryDeleteIssued : Bool
  warnings : List String
  errors : List String
  deriving DecidableEq, Repr

/-- Models `(*ComposeResource).Delete` (internal/resources/compose/resource.go,
lines 277-313).  The remote deletion (`deleteImageFromRegistry`,
internal/resources/compose/logging.go) is represented by its result and is invoked only
when `delete_image` is true; its failure is reported via `AddWarning`, never as an
error, and the function then falls through so the record is removed regardless. -/
def composeDelete (st : ComposeResourceModel) (remoteDelete : Except String Unit) :
    DeleteResponse :=
  if st.deleteImage then
    match remoteDelete with
    | .error e =>
        { registryDeleteIssued := true
          warnings := ["Error deleting image from registry: Could not delete image "
            ++ st.imageURI.valueString ++ ": " ++ e]
          errors := [] }
    | .ok _ =>
        { registryDeleteIssued := true, warnings := [], errors := [] }
  else
    { registryDeleteIssued := false, warnings := [], errors := [] }

/-- Models one entry of the `manifests` array of a decoded OCI image index
(src/unnamed/part_002, lines 129-139).  A missing `digest` field decodes to the empty
string; a missing `annotations` object decodes to a nil map, modelled by `none`. -/
structure ManifestEntry where
  mediaType : String
  digest : String
  annotations : Option (List (String × String))
  deriving DecidableEq, Repr

/-- Models the attestation check inside the index scan (src/unnamed/part_002,
lines 150-155): an entry is skipped when its annotations map is non-nil and maps
`vnd.docker.reference.type` to `attestation-manifest`. -/
def isAttestationManifest (m : ManifestEntry) : Bool :=
  match m.annotations with
  | some kvs =>
    match kvs.lookup "vnd.docker.reference.type" with
    | some refType => refType = "attestation-manifest"
    | none => false
  | none => false

/-- Models the selection loop of the OCI-index branch of `getImageInfoFromRegistry`
(src/unnamed/part_002, lines 148-159): scan `manifests` in order, skip attestation
manifests, take the digest of the first remaining entry; `""` when the loop finds
nothing (the zero value of `selectedDigest`). -/
def selectManifestDigest : List ManifestEntry → String
  | [] => ""
  | m :: rest => if isAttestationManifest m then selectManifestDigest rest else m.digest

/-- Models the OCI-index digest selection including its error check
(src/unnamed/part_002, lines 148-163): after the scan, an empty `selectedDigest`
produces the error `no suitable manifest found in OCI Image Index`; otherwise the
selected digest is used to fetch the inner manifest. -/
def ociIndexSelect (manifests : List ManifestEntry) : Except String String :=
  let selectedDigest := selectManifestDigest manifests
  if selectedDigest = "" then .error "no suitable manifest found in OCI Image Index"
  else .ok selectedDigest

/-- Models the result interface of `reference.ParseAnyReference` from the external
`distribution/reference` library, as consumed by this repository: a named reference
with its domain and path; `tag` is `some` exactly when the value implements
`reference.NamedTagged`, and `digest` is `some` exactly when it implements
`reference.Canonical`.  The library grammar never yields an empty tag or digest. -/
structure ParsedReference where
  domain : String
  path : String
  tag : Option String
  digest : Option String
  deriving DecidableEq, Repr

/-- Models the reference-classification block shared by `getImageInfoFromRegistry`
(src/unnamed/part_002, lines 33-52) and `deleteFromDockerRegistry`
(internal/resources/compose/logging.go, lines 70-90): the tag is extracted when the
reference is tagged, else the digest when it is canonical, else the operation fails
with `image reference must have a tag or digest`.  The result quadruple is the Go
variables `(registry, repository, tag, digest)`, where an absent component keeps its
zero value `""`. -/
def extractReferenceParts (ref : ParsedReference) :
    Except String (String × String × String × String) :=
  match ref.tag with
  | some t => .ok (ref.domain, ref.path, t, "")
  | none =>
    match ref.digest with
    | some d => .ok (ref.domain, ref.path, "", d)
    | none => .error "image reference must have a tag or digest"

/-- Models a decoded Go `interface\x7b\x7d` value as produced by `json.Unmarshal` into
`map[string]any` / `[]any`: null, string, array, or object (Go map, modelled as an
association list). -/
inductive GoValue where
  | vNull
  | vStr (s : String)
  | vArr (xs : List GoValue)
  | vMap (kvs : List (String × GoValue))
  deriving Repr

/-- Models the loop body of the `[]any` branch of `resolveBuildArgs`
(internal/resources/compose/docker_build.go, lines 97-118): a string entry without `=`
is looked up in the environment and materialized as `KEY=value` when found, kept as-is
when not; entries with `=` and non-string entries are kept unchanged. -/
def resolveArrEntry (lookupEnv : String → Option String) (val : GoValue) : GoValue :=
  match val with
  | .vStr s =>
    if s.toList.contains '=' then .vStr s
    else
      match lookupEnv s with
      | some envVal => .vStr (s ++ "=" ++ envVal)
      | none => .vStr s
  | v => v

/-- Models the loop body of the `map[string]any` branch of `resolveBuildArgs`
(internal/resources/compose/docker_build.go, lines 119-136): a nil-valued entry is
looked up under its key and replaced by the environment value when found, kept nil when
not; non-nil values are kept unchanged. -/
def resolveMapEntry (lookupEnv : String → Option String) (key : String) (val : GoValue) :
    GoValue :=
  match val with
  | .vNull =>
    match lookupEnv key with
    | some envVal => .vStr envVal
    | none => .vNull
  | v => v

/-- Models `resolveBuildArgs` (internal/resources/compose/docker_build.go,
lines 92-140): array and map forms are resolved entrywise (returning `true` as the
second component), any other shape is returned unchanged with `false`.  The function
has no error result; its caller in `parseBuildSpec` discards the boolean. -/
def resolveBuildArgs (args : GoValue) (lookupEnv : String → Option String) :
    GoValue × Bool :=
  match args with
  | .vArr xs => (.vArr (xs.map (resolveArrEntry lookupEnv)), true)
  | .vMap kvs => (.vMap (kvs.map fun kv => (kv.1, resolveMapEntry lookupEnv kv.1 kv.2)), true)
  | v => (v, false)

/-- Models the Go struct `AuthConfig` (internal/resources/compose/docker_auth.go,
lines 22-27). -/
structure AuthConfig where
  username : String
  password : String
  auth : String
  deriving DecidableEq, Repr

/-- Models `(*ComposeResource).getAuthConfig` (internal/resources/compose/
docker_auth.go, lines 31-87).  The three variant resolvers perform network calls and
are passed as parameters (`resolveUsernamePassword` models `getUsernamePasswordAuth`
applied to the assembled `authMap`, and so on).  The dispatch itself is the code of the
function: nil auth yields `(nil, nil)`; the `username_password`, `aws_ecr`, and
`google_artifact_registry` blocks are tried in that order; when none is present the
function returns `(nil, nil)` without error. -/
def getAuthConfig
    (resolveUsernamePassword : List (String × String) → Except String AuthConfig)
    (resolveAwsEcr : List (String × String) → String → Except String AuthConfig)
    (resolveGoogleArtifactRegistry : String → Except String AuthConfig)
    (auth : Option AuthModel) (imageURI : String) : Except String (Option AuthConfig) :=
  match auth with
  | none => .ok none
  | some a =>
    match a.usernamePassword with
    | some up =>
      let m0 : List (String × String) :=
        if up.username.isKnownValue then [("username", up.username.valueString)] else []
      let m1 := m0 ++
        (if up.password.isKnownValue then [("password", up.password.valueString)] else [])
      let m2 := m1 ++
        (if up.awsSecretsManager.isKnownValue then
          [("aws_secrets_manager", up.awsSecretsManager.valueString)] else [])
      let m3 := m2 ++
        (if up.googleSecretManager.isKnownValue then
          [("google_secret_manager", up.googleSecretManager.valueString)] else [])
      (resolveUsernamePassword m3).map some
    | none =>
      match a.awsEcr with
      | some ecr =>
        let m : List (String × String) :=
          if ecr.profile.isKnownValue then [("profile", ecr.profile.valueString)] else []
        (resolveAwsEcr m imageURI).map some
      | none =>
        match a.googleArtifactRegistry with
        | some _ => (resolveGoogleArtifactRegistry imageURI).map some
        | none => .ok none

/-- Association lookup on a decoded Go object, modelling `authMap[key]`. -/
def lookupGoMap (key : String) : List (String × GoValue) → Option GoValue
  | [] => none
  | kv :: rest => if kv.1 = key then some kv.2 else lookupGoMap key rest

/-- Models `(*ImageResource).getAuthConfig` (internal/resources/image/docker_auth.go,
lines 30-52): a null/unknown `auth` object yields `(nil, nil)`; otherwise the decoded
object is probed for a `username_password` entry that type-asserts to a map — on
success `getUsernamePasswordAuth` (passed as `resolveUsernamePassword`) is called, and
in every other case the function returns `(nil, nil)` without error. -/
def imageGetAuthConfig
    (resolveUsernamePassword : List (String × GoValue) → Except String AuthConfig)
    (auth : Option (List (String × GoValue))) : Except String (Option AuthConfig) :=
  match auth with
  | none => .ok none
  | some authMap =>
    match lookupGoMap "username_password" authMap with
    | some (.vMap upMap) => (resolveUsernamePassword upMap).map some
    | _ => .ok none

/-- A JSON escape sequence `\\c` as accepted by Go `encoding/json`
(the `\\uXXXX` form is not needed for the credential payloads modelled here and is
rejected by this model). -/
def escChar (c : Char) : Option Char :=
  if c = '"' then some '"'
  else if c = '\\' then some '\\'
  else if c = '/' then some '/'
  else if c = 'b' then some (Char.ofNat 8)
  else if c = 'f' then some (Char.ofNat 12)
  else if c = 'n' then some '\n'
  else if c = 'r' then some (Char.ofNat 13)
  else if c = 't' then some '\t'
  else none

/-- JSON string scanner, applied after the opening quote: returns the decoded
characters and the input remaining after the closing quote.  Unescaped control
characters (below 0x20) are invalid, as in Go `encoding/json`. -/
def parseJStringChars : List Char → Option (List Char × List Char)
  | [] => none
  | c :: rest =>
    if c = '"' then some ([], rest)
    else if c = '\\' then
      match rest with
      | [] => none
      | e :: rest2 =>
        match escChar e with
        | none => none
        | some d => (parseJStringChars rest2).map fun sr => (d :: sr.1, sr.2)
    else if c.toNat < 0x20 then none
    else (parseJStringChars rest).map fun sr => (c :: sr.1, sr.2)

/-- Skips JSON whitespace (space, tab, newline, carriage return). -/
def skipWs : List Char → List Char
  | [] => []
  | c :: rest =>
    if c = ' ' ∨ c = '\t' ∨ c = '\n' ∨ c = Char.ofNat 13 then skipWs rest else c :: rest

/-- Parses one `"key":"value"` member of a JSON object (string-valued members only,
which covers the credential payloads): expects a quote, the key, a colon, a quote, and
the value; returns the pair and the remaining input. -/
def parseJMember (input : List Char) : Option ((List Char × List Char) × List Char) :=
  match input with
  | '"' :: rest =>
    match parseJStringChars rest with
    | none => none
    | some (key, rest1) =>
      match skipWs rest1 with
      | ':' :: rest2 =>
        match skipWs rest2 with
        | '"' :: rest3 =>
          match parseJStringChars rest3 with
          | none => none
          | some (val, rest4) => some ((key, val), rest4)
        | _ => none
      | _ => none
  | _ => none

/-- Parses the member list of a JSON object after the opening brace, fuelled by an
upper bound on the member count; returns the members and the input remaining after the
closing brace. -/
def parseJMembers : Nat → List Char → Option (List (List Char × List Char) × List Char)
  | 0, _ => none
  | fuel + 1, input =>
    match parseJMember (skipWs input) with
    | none => none
    | some (kv, rest) =>
      match skipWs rest with
      | ',' :: rest2 =>
        match parseJMembers fuel rest2 with
        | none => none
        | some (kvs, rest3) => some (kv :: kvs, rest3)
      | '}' :: rest2 => some ([kv], rest2)
      | _ => none

/-- Parses a complete JSON object with string-valued members, rejecting trailing
input — Go `json.Unmarshal` fails on anything after the top-level value.  Inputs that
are not objects are rejected; this models `json.Unmarshal` on the flat credential
payloads handled by `parseCredentialsString`. -/
def parseJsonObject (input : List Char) : Option (List (List Char × List Char)) :=
  match skipWs input with
  | [] => none
  | c :: rest =>
    if c = '{' then
      if (skipWs rest).headD ' ' = '}' then
        if (skipWs ((skipWs rest).tailD [])).isEmpty then some [] else none
      else
        match parseJMembers ((skipWs rest).length + 1) (skipWs rest) with
        | none => none
        | some (kvs, rest2) => if (skipWs rest2).isEmpty then some kvs else none
    else none

/-- The value of the last occurrence of `key` — Go `json.Unmarshal` keeps the last
duplicate member. -/
def lookupLastMember (key : List Char) (kvs : List (List Char × List Char)) :
    Option (List Char) :=
  ((kvs.filter fun kv => kv.1 = key).getLast?).map fun kv => kv.2

/-- Models `json.Unmarshal(credentialsString, &jsonCreds)` for the struct with fields
`username` and `password` (internal/resources/compose/docker_auth.go, lines 210-215):
`none` when the input is not a valid JSON object; otherwise the two fields, each
defaulting to `""` when absent. -/
def goUnmarshalCreds (s : String) : Option (String × String) :=
  match parseJsonObject s.toList with
  | none => none
  | some kvs =>
    some (String.mk ((lookupLastMember "username".toList kvs).getD []),
          String.mk ((lookupLastMember "password".toList kvs).getD []))

/-- Models `strings.SplitN(s, ":", 2)` restricted to its two-part outcome: the parts
before and after the first colon, or `none` when the input has no colon (in which case
`SplitN` returns a single part and the `len(parts) == 2` check in
`parseCredentialsString` fails). -/
def splitN2Colon : List Char → Option (List Char × List Char)
  | [] => none
  | c :: rest =>
    if c = ':' then some ([], rest)
    else (splitN2Colon rest).map fun pr => (c :: pr.1, pr.2)

/-- The error message of `parseCredentialsString`
(internal/resources/compose/docker_auth.go, line 237). -/
def invalidCredsMsg : String :=
  "invalid credentials format: expected JSON with username/password or string with format username:password"

/-- Models the colon-split fallback of `parseCredentialsString`
(internal/resources/compose/docker_auth.go, lines 223-237). -/
def colonFallback (credentialsString : String) : Except String AuthConfig :=
  match splitN2Colon credentialsString.toList with
  | some (a, b) =>
    if a ≠ [] ∧ b ≠ [] then
      .ok { username := String.mk a, password := String.mk b, auth := "" }
    else .error invalidCredsMsg
  | none => .error invalidCredsMsg

/-- Models `(*ComposeResource).parseCredentialsString`
(internal/resources/compose/docker_auth.go, lines 207-238; the image resource has the
identical function): try JSON first, accept it when both fields are non-empty,
otherwise fall back to the first-colon split, and fail with
`invalid credentials format` when neither applies. -/
def parseCredentialsString (credentialsString : String) : Except String AuthConfig :=
  match goUnmarshalCreds credentialsString with
  | some (u, p) =>
    if u ≠ "" ∧ p ≠ "" then .ok { username := u, password := p, auth := "" }
    else colonFallback credentialsString
  | none => colonFallback credentialsString

/-- The standard base64 alphabet used by Go `base64.StdEncoding`. -/
def base64Table : List Char :=
  "ABCDEFGHIJKLMNOPQRSTUVWXYZabcdefghijklmnopqrstuvwxyz0123456789+/".toList

/-- One alphabet character of the standard base64 encoding. -/
def base64Char (n : Nat) : Char := base64Table.getD n 'A'

/-- Models `base64.StdEncoding.EncodeToString` on a byte list. -/
def base64EncodeStd : List UInt8 → String
  | [] => ""
  | [a] =>
    String.mk [base64Char (a.toNat / 4), base64Char (a.toNat % 4 * 16)] ++ "=="
  | [a, b] =>
    String.mk [base64Char (a.toNat / 4), base64Char (a.toNat % 4 * 16 + b.toNat / 16),
      base64Char (b.toNat % 16 * 4)] ++ "="
  | a :: b :: c :: rest =>
    String.mk [base64Char (a.toNat / 4), base64Char (a.toNat % 4 * 16 + b.toNat / 16),
      base64Char (b.toNat % 16 * 4 + c.toNat / 64), base64Char (c.toNat % 64)]
      ++ base64EncodeStd rest

/-- Models `(*ComposeResource).GetHTTPAuthHeader`
(internal/resources/compose/docker_auth.go, lines 262-271): `""` for a nil credential,
otherwise `Basic ` followed by the standard base64 encoding of `username:password`. -/
def getHTTPAuthHeader : Option AuthConfig → String
  | none => ""
  | some authConfig =>
    "Basic " ++ base64EncodeStd
      ((authConfig.username ++ ":" ++ authConfig.password).toUTF8.toList)

/-- The JSON credential payload of the claim, serialized without spaces:
the text of `\x7b"username":u,"password":p\x7d` for plain `u`, `p`. -/
def jsonCredPayload (u p : String) : String :=
  "\x7b\"username\":\"" ++ u ++ "\",\"password\":\"" ++ p ++ "\"\x7d"

/-- A character is JSON-plain when it may appear unescaped and unmodified inside a
JSON string literal: printable (not below 0x20) and neither quote nor backslash. -/
def jsonPlainChar (c : Char) : Bool :=
  decide (0x20 ≤ c.toNat) && c ≠ '"' && c ≠ '\\'

/-- A character is credential-plain when its strings take the same parse through both
credential formats: JSON-plain, not whitespace, and none of `:`, `\x7b`, `\x7d`. -/
def credPlainChar (c : Char) : Bool :=
  decide (0x21 ≤ c.toNat) && c ≠ '"' && c ≠ '\\' && c ≠ ':' && c ≠ '{' && c ≠ '}'

/-- A concrete resource state used to instantiate the lifecycle theorems. -/
def sampleState : ComposeResourceModel :=
  { id := .value "7f9c2ba4-e88f-11eb-9a03-0242ac130003"
    imageURI := .value "registry.example.com/team/app:v1"
    build := .value "\x7b\"context\":\".\"\x7d"
    labels := [("label1", "value1")]
    triggers := [("sourcehash", "abc")]
    deleteImage := false
    auth := none
    sha256Digest := .value "sha256:old" }

/-- The sample state with `delete_image = true`. -/
def sampleStateDelete : ComposeResourceModel := { sampleState with deleteImage := true }

/-- A concrete plan for `Create`: the `id` attribute is still unknown (computed),
as in a first apply. -/
def c1Plan : ComposeResourceModel := { sampleState with id := .unknown }

/-- A concrete OCI-index entry annotated as an attestation manifest. -/
def attestationEntry : ManifestEntry :=
  { mediaType := "application/vnd.oci.image.manifest.v1+json"
    digest := "sha256:att"
    annotations := some [("vnd.docker.reference.type", "attestation-manifest")] }

/-- A concrete OCI-index entry for a real platform image. -/
def platformEntry : ManifestEntry :=
  { mediaType := "application/vnd.oci.image.manifest.v1+json"
    digest := "sha256:real"
    annotations := none }

/-- A concrete OCI-index entry that is not an attestation manifest but whose decoded
`digest` field is empty (the field was absent from the JSON). -/
def emptyDigestEntry : ManifestEntry :=
  { mediaType := "application/vnd.oci.image.manifest.v1+json"
    digest := ""
    annotations := none }

/-!
Theorems.  Each claim of the specification is settled by one theorem below,
accompanied by a witness or counterexample where required.
-/

/-- Auxiliary: a string whose character list is empty is the empty string. -/
theorem string_of_toList_eq_nil (s : String) (h : s.toList = []) : s = "" := by
  cases s with
  | mk data =>
    simp only [String.toList] at h
    simp [h]

/-- Auxiliary: rebuilding a string from its character list is the identity. -/
theorem string_mk_toList (s : String) : String.mk s.toList = s := rfl

/-- C1: the code does NOT satisfy the claim — `Create` assigns the `imageURI` value
itself as the resource id (`plan.ID = plan.ImageURI`, resource.go line 165), while
`ImportState` does generate a fresh UUID.  This theorem evaluates the embedded `Create`
at the failing input and exhibits the divergence. -/
theorem C1_create_assigns_imageURI_as_id :
    (composeCreate c1Plan (.ok ())).state.map (fun s => s.id)
      = some (TFString.value "registry.example.com/team/app:v1")
  ∧ c1Plan.imageURI = TFString.value "registry.example.com/team/app:v1"
  ∧ (composeImportState "registry.example.com/team/app:v1"
      "123e4567-e89b-12d3-a456-426614174000").id
      = TFString.value "123e4567-e89b-12d3-a456-426614174000" :=
  ⟨rfl, rfl, rfl⟩

/-- C2: whenever the registry inspector fails — NotFound, AuthError, or any other
error — `Read` removes the resource from tracked state and raises no operation
error. -/
theorem C2_read_inspector_error_removes_resource (st : ComposeResourceModel)
    (e : InspectorError) :
    composeRead st (.error e) = { state := none, errors := [] } :=
  rfl

/-- C3: after a successful inspection, the stored `sha256Digest` equals the
`Docker-Content-Digest` header of the top-level manifest response whenever that header
is non-empty, and the config blob digest is used only as a fallback when the header is
empty. -/
theorem C3_manifest_digest_priority (st : ComposeResourceModel)
    (header cfg : String) (ls : List (String × String)) :
    (header ≠ "" →
      (composeRead st (.ok (mkImageInfo header cfg ls))).state.map
        (fun s => s.sha256Digest) = some (.value header))
  ∧ (header = "" → cfg ≠ "" →
      (composeRead st (.ok (mkImageInfo header cfg ls))).state.map
        (fun s => s.sha256Digest) = some (.value cfg)) := by
  constructor
  · intro h
    simp [composeRead, applyImageInfo, updateDigest, mkImageInfo, h]
  · intro h hc
    simp [composeRead, applyImageInfo, updateDigest, mkImageInfo, h, hc]

/-- Witness for C3 at the concrete digests of the specification example:
header `sha256:AAA` with config digest `sha256:BBB` yields `sha256:AAA`; an empty
header with config digest `sha256:BBB` yields `sha256:BBB`. -/
theorem C3_manifest_digest_priority_witness :
    (composeRead sampleState (.ok (mkImageInfo "sha256:AAA" "sha256:BBB" []))).state.map
      (fun s => s.sha256Digest) = some (.value "sha256:AAA")
  ∧ (composeRead sampleState (.ok (mkImageInfo "" "sha256:BBB" []))).state.map
      (fun s => s.sha256Digest) = some (.value "sha256:BBB") :=
  ⟨(C3_manifest_digest_priority sampleState "sha256:AAA" "sha256:BBB" []).1 (by decide),
   (C3_manifest_digest_priority sampleState "" "sha256:BBB" []).2 rfl (by decide)⟩

/-- C5: `Delete` never invokes the remote registry deletion when `delete_image` is
false; when it is true and the remote deletion fails, a warning is produced while the
error diagnostics stay empty, so the framework still removes the local record. -/
theorem C5_delete_policy (st : ComposeResourceModel) (remote : Except String Unit) :
    (st.deleteImage = false → (composeDelete st remote).registryDeleteIssued = false)
  ∧ (composeDelete st remote).errors = []
  ∧ (∀ e, st.deleteImage = true → remote = .error e →
      (composeDelete st remote).warnings ≠ []) := by
  refine ⟨?_, ?_, ?_⟩
  · intro h
    simp [composeDelete, h]
  · by_cases h : st.deleteImage
    · cases remote <;> simp [composeDelete, h]
    · simp [composeDelete, h]
  · intro e h1 h2
    subst h2
    simp [composeDelete, h1]

/-- Witness for C5: with `delete_image=false` no registry deletion is attempted; with
`delete_image=true` and a failing remote deletion there is a warning and no error. -/
theorem C5_delete_policy_witness :
    (composeDelete sampleState (.error "boom")).registryDeleteIssued = false
  ∧ (composeDelete sampleStateDelete (.error "boom")).errors = []
  ∧ (composeDelete sampleStateDelete (.error "boom")).warnings ≠ [] :=
  ⟨(C5_delete_policy sampleState (.error "boom")).1 rfl,
   (C5_delete_policy sampleStateDelete (.error "boom")).2.1,
   (C5_delete_policy sampleStateDelete (.error "boom")).2.2 "boom" rfl rfl⟩

/-- C6: a successful `Read` overwrites `labels` from the registry only when the
observed label map is non-empty, and leaves `triggers`, `build`, `auth`, and
`delete_image` untouched. -/
theorem C6_read_frame (st : ComposeResourceModel) (info : ImageInfo) :
    (composeRead st (.ok info)).state.map (fun s => s.triggers) = some st.triggers
  ∧ (composeRead st (.ok info)).state.map (fun s => s.build) = some st.build
  ∧ (composeRead st (.ok info)).state.map (fun s => s.auth) = some st.auth
  ∧ (composeRead st (.ok info)).state.map (fun s => s.deleteImage) = some st.deleteImage
  ∧ (info.labels = [] →
      (composeRead st (.ok info)).state.map (fun s => s.labels) = some st.labels)
  ∧ (info.labels ≠ [] →
      (composeRead st (.ok info)).state.map (fun s => s.labels) = some info.labels) := by
  refine ⟨?_, ?_, ?_, ?_, ?_, ?_⟩
  · simp only [composeRead, applyImageInfo, updateDigest, updateLabels]
    split_ifs <;> simp
  · simp only [composeRead, applyImageInfo, updateDigest, updateLabels]
    split_ifs <;> simp
  · simp only [composeRead, applyImageInfo, updateDigest, updateLabels]
    split_ifs <;> simp
  · simp only [composeRead, applyImageInfo, updateDigest, updateLabels]
    split_ifs <;> simp
  · intro h
    simp only [composeRead, applyImageInfo, updateDigest, updateLabels]
    split_ifs <;> simp_all
  · intro h
    simp only [composeRead, applyImageInfo, updateDigest, updateLabels]
    split_ifs <;> simp_all

/-- Witness for C6: at a concrete state, an empty observed label map leaves the stored
labels unchanged, and a non-empty one overwrites them; triggers are untouched. -/
theorem C6_read_frame_witness :
    (composeRead sampleState (.ok (mkImageInfo "d" "c" []))).state.map
      (fun s => s.labels) = some sampleState.labels
  ∧ (composeRead sampleState (.ok (mkImageInfo "d" "c" [("k", "v")]))).state.map
      (fun s => s.labels) = some [("k", "v")]
  ∧ (composeRead sampleState (.ok (mkImageInfo "d" "c" [("k", "v")]))).state.map
      (fun s => s.triggers) = some sampleState.triggers :=
  ⟨(C6_read_frame sampleState (mkImageInfo "d" "c" [])).2.2.2.2.1 rfl,
   (C6_read_frame sampleState (mkImageInfo "d" "c" [("k", "v")])).2.2.2.2.2 (by decide),
   (C6_read_frame sampleState (mkImageInfo "d" "c" [("k", "v")])).1⟩

/-- C9: the reference classification yields exactly one of tag and digest — a tagged
reference produces its tag with an empty digest, a purely canonical reference produces
its digest with an empty tag, and a reference carrying neither fails. -/
theorem C9_reference_classification (ref : ParsedReference)
    (htag : ref.tag ≠ some "") (hdig : ref.digest ≠ some "") :
    (∀ t, ref.tag = some t →
      extractReferenceParts ref = .ok (ref.domain, ref.path, t, ""))
  ∧ (∀ d, ref.tag = none → ref.digest = some d →
      extractReferenceParts ref = .ok (ref.domain, ref.path, "", d))
  ∧ (ref.tag = none → ref.digest = none →
      extractReferenceParts ref = .error "image reference must have a tag or digest")
  ∧ (∀ dom repo t d, extractReferenceParts ref = .ok (dom, repo, t, d) →
      (t ≠ "" ∧ d = "") ∨ (t = "" ∧ d ≠ "")) := by
  refine ⟨?_, ?_, ?_, ?_⟩
  · intro t ht
    simp [extractReferenceParts, ht]
  · intro d ht hd
    simp [extractReferenceParts, ht, hd]
  · intro ht hd
    simp [extractReferenceParts, ht, hd]
  · intro dom repo t d hok
    cases hcase : ref.tag with
    | some t2 =>
      have hx : extractReferenceParts ref = .ok (ref.domain, ref.path, t2, "") := by
        simp [extractReferenceParts, hcase]
      rw [hx] at hok
      simp only [Except.ok.injEq, Prod.mk.injEq] at hok
      obtain ⟨h1, h2, h3, h4⟩ := hok
      subst h3
      subst h4
      exact Or.inl ⟨fun h => htag (by rw [hcase, h]), rfl⟩
    | none =>
      cases hdcase : ref.digest with
      | some d2 =>
        have hx : extractReferenceParts ref = .ok (ref.domain, ref.path, "", d2) := by
          simp [extractReferenceParts, hcase, hdcase]
        rw [hx] at hok
        simp only [Except.ok.injEq, Prod.mk.injEq] at hok
        obtain ⟨h1, h2, h3, h4⟩ := hok
        subst h3
        subst h4
        exact Or.inr ⟨rfl, fun h => hdig (by rw [hdcase, h])⟩
      | none =>
        have hx : extractReferenceParts ref
            = .error "image reference must have a tag or digest" := by
          simp [extractReferenceParts, hcase, hdcase]
        rw [hx] at hok
        simp at hok

/-- Witness for C9 at the two concrete reference shapes of the claim and at a
reference with neither tag nor digest. -/
theorem C9_reference_classification_witness :
    extractReferenceParts
        { domain := "registry.example.com", path := "team/app",
          tag := some "v1", digest := none }
      = .ok ("registry.example.com", "team/app", "v1", "")
  ∧ extractReferenceParts
        { domain := "registry.example.com", path := "team/app",
          tag := none, digest := some "sha256:abc" }
      = .ok ("registry.example.com", "team/app", "", "sha256:abc")
  ∧ extractReferenceParts
        { domain := "registry.example.com", path := "team/app",
          tag := none, digest := none }
      = .error "image reference must have a tag or digest" :=
  ⟨(C9_reference_classification _ (by decide) (by decide)).1 "v1" rfl,
   (C9_reference_classification _ (by decide) (by decide)).2.1 "sha256:abc" rfl rfl,
   (C9_reference_classification _ (by decide) (by decide)).2.2.1 rfl rfl⟩

/-- C10: an `auth` block with none of the `username_password`, `aws_ecr`, or
`google_artifact_registry` variants populated resolves to a nil credential (anonymous
access) without error, in both the compose and the image resource. -/
theorem C10_empty_auth_block_is_anonymous
    (rup : List (String × String) → Except String AuthConfig)
    (recr : List (String × String) → String → Except String AuthConfig)
    (rgar : String → Except String AuthConfig)
    (rupImage : List (String × GoValue) → Except String AuthConfig)
    (uri : String) :
    getAuthConfig rup recr rgar
        (some { awsEcr := none, googleArtifactRegistry := none, usernamePassword := none })
        uri
      = .ok none
  ∧ imageGetAuthConfig rupImage (some [("username_password", .vNull)]) = .ok none :=
  ⟨rfl, rfl⟩

/-- Auxiliary for C4: under non-empty entry digests, the selection loop yields the
empty string exactly when every entry is an attestation manifest. -/
theorem selectManifestDigest_empty_iff (ms : List ManifestEntry)
    (h : ∀ m ∈ ms, m.digest ≠ "") :
    (selectManifestDigest ms = "" ↔ ∀ m ∈ ms, isAttestationManifest m = true) := by
  induction ms with
  | nil => simp [selectManifestDigest]
  | cons m rest ih =>
    have hrest : ∀ x ∈ rest, x.digest ≠ "" := fun x hx => h x (by simp [hx])
    by_cases hm : isAttestationManifest m = true
    · simp [selectManifestDigest, hm, ih hrest]
    · simp [selectManifestDigest, hm, h m (by simp)]

/-- Auxiliary for C4: when every entry before `m` is an attestation manifest and `m`
is not, the selection loop yields `m`'s digest. -/
theorem selectManifestDigest_first (pre : List ManifestEntry) (m : ManifestEntry)
    (post : List ManifestEntry) (hpre : ∀ x ∈ pre, isAttestationManifest x = true)
    (hm : isAttestationManifest m = false) :
    selectManifestDigest (pre ++ m :: post) = m.digest := by
  induction pre with
  | nil => simp [selectManifestDigest, hm]
  | cons p rest ih =>
    rw [List.cons_append, selectManifestDigest, if_pos (hpre p (by simp))]
    exact ih fun x hx => hpre x (by simp [hx])

/-- C4 counterexample: an OCI index whose single entry is NOT an attestation manifest
but carries an empty digest (a decoded entry without a `digest` field) makes the code
fail with `no suitable manifest found`, refuting the claim that the error occurs
exactly when every entry is an attestation manifest. -/
theorem C4_counterexample :
    ociIndexSelect [emptyDigestEntry]
      = .error "no suitable manifest found in OCI Image Index"
  ∧ ¬ (∀ m ∈ [emptyDigestEntry], isAttestationManifest m = true) := by
  constructor
  · rfl
  · intro hall
    have := hall emptyDigestEntry (List.mem_singleton.mpr rfl)
    simp [isAttestationManifest, emptyDigestEntry] at this

/-- C4 (amended): provided every index entry carries a non-empty digest, the index
scan fails with `no suitable manifest found` exactly when every entry is an
attestation manifest, and otherwise selects the digest of the first non-attestation
entry regardless of its position. -/
theorem C4_index_selection_amended (ms : List ManifestEntry)
    (h : ∀ m ∈ ms, m.digest ≠ "") :
    (ociIndexSelect ms = .error "no suitable manifest found in OCI Image Index"
      ↔ ∀ m ∈ ms, isAttestationManifest m = true)
  ∧ (∀ pre m post, ms = pre ++ m :: post →
      (∀ x ∈ pre, isAttestationManifest x = true) →
      isAttestationManifest m = false →
      ociIndexSelect ms = .ok m.digest) := by
  constructor
  · rw [← selectManifestDigest_empty_iff ms h]
    unfold ociIndexSelect
    by_cases hsel : selectManifestDigest ms = "" <;> simp [hsel]
  · intro pre m post hms hpre hm
    subst hms
    unfold ociIndexSelect
    rw [selectManifestDigest_first pre m post hpre hm]
    simp [h m (by simp)]

/-- Witness for C4 (amended): an index listing an attestation manifest first and a
platform manifest second selects the platform manifest digest; an index with only
attestation manifests fails with `no suitable manifest found`. -/
theorem C4_index_selection_witness :
    ociIndexSelect [attestationEntry, platformEntry] = .ok "sha256:real"
  ∧ ociIndexSelect [attestationEntry]
      = .error "no suitable manifest found in OCI Image Index" :=
  ⟨(C4_index_selection_amended [attestationEntry, platformEntry] (by decide)).2
      [attestationEntry] platformEntry [] rfl (by decide) (by decide),
   (C4_index_selection_amended [attestationEntry] (by decide)).1.mpr (by decide)⟩

/-- C8: a bare-key build-arg entry (array form) or a nil-valued map entry is
materialized from the environment when the variable is set and left unresolved when it
is not, in both cases without error, while surrounding entries are resolved
entrywise. -/
theorem C8_build_arg_resolution (key : String) (lookupEnv : String → Option String)
    (pre post : List GoValue) (mpre mpost : List (String × GoValue))
    (hkey : '=' ∉ key.toList) :
    (∀ v, lookupEnv key = some v →
      resolveBuildArgs (.vArr (pre ++ .vStr key :: post)) lookupEnv
        = (.vArr (pre.map (resolveArrEntry lookupEnv)
            ++ .vStr (key ++ "=" ++ v) :: post.map (resolveArrEntry lookupEnv)), true)
      ∧ resolveBuildArgs (.vMap (mpre ++ (key, .vNull) :: mpost)) lookupEnv
        = (.vMap ((mpre.map fun kv => (kv.1, resolveMapEntry lookupEnv kv.1 kv.2))
            ++ (key, .vStr v)
              :: (mpost.map fun kv => (kv.1, resolveMapEntry lookupEnv kv.1 kv.2))), true))
  ∧ (lookupEnv key = none →
      resolveBuildArgs (.vArr (pre ++ .vStr key :: post)) lookupEnv
        = (.vArr (pre.map (resolveArrEntry lookupEnv)
            ++ .vStr key :: post.map (resolveArrEntry lookupEnv)), true)
      ∧ resolveBuildArgs (.vMap (mpre ++ (key, .vNull) :: mpost)) lookupEnv
        = (.vMap ((mpre.map fun kv => (kv.1, resolveMapEntry lookupEnv kv.1 kv.2))
            ++ (key, .vNull)
              :: (mpost.map fun kv => (kv.1, resolveMapEntry lookupEnv kv.1 kv.2))), true)) := by
  have hkey2 : '=' ∉ key.data := hkey
  constructor
  · intro v hv
    constructor <;>
      simp [resolveBuildArgs, resolveArrEntry, resolveMapEntry, hkey2, hv]
  · intro hv
    constructor <;>
      simp [resolveBuildArgs, resolveArrEntry, resolveMapEntry, hkey2, hv]

/-- Witness for C8 at the specification example: `args=["FOO"]` with `FOO=bar` in the
environment resolves to `FOO=bar` (and map form to the value), while with `FOO` unset
both forms stay unresolved. -/
theorem C8_build_arg_resolution_witness :
    resolveBuildArgs (.vArr [.vStr "FOO"]) (fun k => if k = "FOO" then some "bar" else none)
      = (.vArr [.vStr "FOO=bar"], true)
  ∧ resolveBuildArgs (.vMap [("FOO", .vNull)]) (fun k => if k = "FOO" then some "bar" else none)
      = (.vMap [("FOO", .vStr "bar")], true)
  ∧ resolveBuildArgs (.vArr [.vStr "FOO"]) (fun _ => none) = (.vArr [.vStr "FOO"], true)
  ∧ resolveBuildArgs (.vMap [("FOO", .vNull)]) (fun _ => none)
      = (.vMap [("FOO", .vNull)], true) := by
  have h1 := (C8_build_arg_resolution "FOO"
    (fun k => if k = "FOO" then some "bar" else none) [] [] [] [] (by decide)).1 "bar"
    (by simp)
  have h2 := (C8_build_arg_resolution "FOO" (fun _ => none) [] [] [] [] (by decide)).2
    rfl
  exact ⟨h1.1, h1.2, h2.1, h2.2⟩

/-- Auxiliary for C7: the JSON string scanner consumes a run of plain characters up to
the closing quote. -/
theorem parseJStringChars_plain (s r : List Char)
    (hs : ∀ c ∈ s, jsonPlainChar c = true) :
    parseJStringChars (s ++ '"' :: r) = some (s, r) := by
  induction s with
  | nil =>
    rw [List.nil_append, parseJStringChars.eq_def]
    rfl
  | cons c cs ih =>
    have hc := hs c (by simp)
    simp only [jsonPlainChar, Bool.and_eq_true, decide_eq_true_eq] at hc
    obtain ⟨⟨h0, h1⟩, h2⟩ := hc
    have h3 : ¬ c.toNat < 0x20 := by omega
    rw [List.cons_append, parseJStringChars.eq_def]
    simp [if_neg h1, if_neg h2, if_neg h3, ih fun x hx => hs x (by simp [hx])]

/-- Auxiliary for C7: the first-colon split on a colon-free prefix. -/
theorem splitN2Colon_plain (a b : List Char) (ha : ':' ∉ a) :
    splitN2Colon (a ++ ':' :: b) = some (a, b) := by
  induction a with
  | nil => rfl
  | cons c cs ih =>
    have h1 : ¬ c = ':' := fun h => ha (by simp [h])
    simp [List.cons_append, splitN2Colon, if_neg h1, ih fun h => ha (by simp [h])]

/-- Auxiliary for C7: skipping whitespace in front of a printable character does
nothing. -/
theorem skipWs_printable (c : Char) (rest : List Char) (h : 0x21 ≤ c.toNat) :
    skipWs (c :: rest) = c :: rest := by
  have h1 : ¬ c = ' ' := fun he => by subst he; exact absurd h (by decide)
  have h2 : ¬ c = '\t' := fun he => by subst he; exact absurd h (by decide)
  have h3 : ¬ c = '\n' := fun he => by subst he; exact absurd h (by decide)
  have h4 : ¬ c = Char.ofNat 13 := fun he => by subst he; exact absurd h (by decide)
  simp [skipWs, h1, h2, h3, h4]

/-- Auxiliary for C7: parsing one plain `"key":"value"` member. -/
theorem parseJMember_plain (k v r : List Char)
    (hk : ∀ c ∈ k, jsonPlainChar c = true) (hv : ∀ c ∈ v, jsonPlainChar c = true) :
    parseJMember ('"' :: (k ++ '"' :: ':' :: '"' :: (v ++ '"' :: r)))
      = some ((k, v), r) := by
  rw [parseJMember.eq_def]
  simp [parseJStringChars_plain k (':' :: '"' :: (v ++ '"' :: r)) hk, skipWs,
    parseJStringChars_plain v r hv]

/-- Auxiliary for C7: parsing the member list of a two-member object of plain
strings. -/
theorem parseJMembers_two (fuel : Nat) (k1 v1 k2 v2 : List Char)
    (hk1 : ∀ c ∈ k1, jsonPlainChar c = true) (hv1 : ∀ c ∈ v1, jsonPlainChar c = true)
    (hk2 : ∀ c ∈ k2, jsonPlainChar c = true) (hv2 : ∀ c ∈ v2, jsonPlainChar c = true) :
    parseJMembers (fuel + 2)
      ('"' :: (k1 ++ '"' :: ':' :: '"' ::
        (v1 ++ '"' :: ',' :: '"' :: (k2 ++ '"' :: ':' :: '"' :: (v2 ++ '"' :: '}' :: [])))))
      = some ([(k1, v1), (k2, v2)], []) := by
  rw [parseJMembers.eq_def]
  simp only [skipWs_printable '"' _ (by decide)]
  rw [parseJMember_plain k1 v1
    (',' :: '"' :: (k2 ++ '"' :: ':' :: '"' :: (v2 ++ '"' :: '}' :: []))) hk1 hv1]
  simp only [skipWs_printable ',' _ (by decide)]
  rw [parseJMembers.eq_def]
  simp only [skipWs_printable '"' _ (by decide)]
  rw [parseJMember_plain k2 v2 ('}' :: []) hk2 hv2]
  simp only [skipWs_printable '}' _ (by decide)]

/-- Auxiliary for C7: `parseJMembers_two` for any sufficient fuel. -/
theorem parseJMembers_two_ge (fuel : Nat) (k1 v1 k2 v2 : List Char) (h2 : 2 ≤ fuel)
    (hk1 : ∀ c ∈ k1, jsonPlainChar c = true) (hv1 : ∀ c ∈ v1, jsonPlainChar c = true)
    (hk2 : ∀ c ∈ k2, jsonPlainChar c = true) (hv2 : ∀ c ∈ v2, jsonPlainChar c = true) :
    parseJMembers fuel
      ('"' :: (k1 ++ '"' :: ':' :: '"' ::
        (v1 ++ '"' :: ',' :: '"' :: (k2 ++ '"' :: ':' :: '"' :: (v2 ++ '"' :: '}' :: [])))))
      = some ([(k1, v1), (k2, v2)], []) := by
  obtain ⟨f, rfl⟩ : ∃ f, fuel = f + 2 := ⟨fuel - 2, by omega⟩
  exact parseJMembers_two f k1 v1 k2 v2 hk1 hv1 hk2 hv2

/-- Auxiliary for C7: the whole credential JSON payload parses to its two members. -/
theorem parseJsonObject_credPayload (u p : String)
    (hcu : ∀ c ∈ u.toList, jsonPlainChar c = true)
    (hcp : ∀ c ∈ p.toList, jsonPlainChar c = true) :
    parseJsonObject (jsonCredPayload u p).toList
      = some [("username".toList, u.toList), ("password".toList, p.toList)] := by
  have hlist : (jsonCredPayload u p).toList
      = '{' :: '"' :: ("username".toList ++ '"' :: ':' :: '"' ::
          (u.toList ++ '"' :: ',' :: '"' :: ("password".toList ++ '"' :: ':' :: '"' ::
            (p.toList ++ '"' :: '}' :: [])))) := by
    simp [jsonCredPayload, String.toList, String.data_append, List.append_assoc]
  rw [hlist, parseJsonObject.eq_def]
  simp only [skipWs_printable '{' _ (by decide), skipWs_printable '"' _ (by decide),
    List.headD_cons, if_true, if_false, ite_true, ite_false]
  rw [parseJMembers_two_ge]
  · simp [skipWs]
  · simp
  · exact List.all_eq_true.mp (by decide)
  · exact hcu
  · exact List.all_eq_true.mp (by decide)
  · exact hcp

/-- Auxiliary for C7: unmarshalling the credential JSON payload yields the pair. -/
theorem goUnmarshalCreds_credPayload (u p : String)
    (hcu : ∀ c ∈ u.toList, jsonPlainChar c = true)
    (hcp : ∀ c ∈ p.toList, jsonPlainChar c = true) :
    goUnmarshalCreds (jsonCredPayload u p) = some (u, p) := by
  unfold goUnmarshalCreds
  rw [parseJsonObject_credPayload u p hcu hcp]
  simp [lookupLastMember, string_mk_toList]

/-- Auxiliary for C7: the colon-joined payload is not valid JSON, since a
credential-plain username starts with a printable character other than an opening
brace. -/
theorem goUnmarshalCreds_colon_none (u p : String) (hu : u ≠ "")
    (hcu : ∀ c ∈ u.toList, credPlainChar c = true) :
    goUnmarshalCreds (u ++ ":" ++ p) = none := by
  unfold goUnmarshalCreds
  have hto : (u ++ ":" ++ p).toList = u.toList ++ ':' :: p.toList := by
    simp [String.toList, String.data_append]
  rw [hto]
  cases hcase : u.toList with
  | nil => exact absurd (string_of_toList_eq_nil u hcase) hu
  | cons c cs =>
    have hc := hcu c (hcase ▸ List.mem_cons_self c cs)
    simp only [credPlainChar, Bool.and_eq_true, decide_eq_true_eq] at hc
    obtain ⟨⟨⟨⟨⟨h0, h1⟩, h2⟩, h3⟩, h4⟩, h5⟩ := hc
    rw [List.cons_append, parseJsonObject.eq_def, skipWs_printable c _ h0]
    simp [h4]

/-- C7 counterexample: for the username `a:b` (which contains a colon) and password
`c`, the JSON payload and the colon-joined payload parse to DIFFERENT credentials —
the colon split always cuts at the first colon — refuting the claim for arbitrary
non-empty usernames. -/
theorem C7_counterexample :
    parseCredentialsString (jsonCredPayload "a:b" "c")
      = .ok { username := "a:b", password := "c", auth := "" }
  ∧ parseCredentialsString ("a:b" ++ ":" ++ "c")
      = .ok { username := "a", password := "b:c", auth := "" }
  ∧ ({ username := "a:b", password := "c", auth := "" } : AuthConfig)
      ≠ { username := "a", password := "b:c", auth := "" } :=
  ⟨rfl, rfl, by decide⟩

/-- C7 (amended): for a non-empty username of plain characters containing no colon and
a non-empty password of JSON-plain characters, the JSON payload and the colon-joined
payload parse to the same credential, which renders as the HTTP Basic header over
base64 of `username:password`; and every payload matching neither format fails with
the `invalid credentials format` error. -/
theorem C7_credential_formats_amended (u p : String)
    (hu : u ≠ "") (hp : p ≠ "")
    (hcu : ∀ c ∈ u.toList, credPlainChar c = true)
    (hcp : ∀ c ∈ p.toList, jsonPlainChar c = true) :
    parseCredentialsString (jsonCredPayload u p)
      = .ok { username := u, password := p, auth := "" }
  ∧ parseCredentialsString (u ++ ":" ++ p)
      = .ok { username := u, password := p, auth := "" }
  ∧ getHTTPAuthHeader (some { username := u, password := p, auth := "" })
      = "Basic " ++ base64EncodeStd ((u ++ ":" ++ p).toUTF8.toList)
  ∧ (∀ s : String,
      (∀ u2 p2, goUnmarshalCreds s = some (u2, p2) → u2 = "" ∨ p2 = "") →
      (∀ a b, splitN2Colon s.toList = some (a, b) → a = [] ∨ b = []) →
      parseCredentialsString s = .error invalidCredsMsg) := by
  have hcu2 : ∀ c ∈ u.toList, jsonPlainChar c = true := by
    intro c hc
    have h := hcu c hc
    simp only [credPlainChar, Bool.and_eq_true, decide_eq_true_eq] at h
    obtain ⟨⟨⟨⟨⟨h0, h1⟩, h2⟩, h3⟩, h4⟩, h5⟩ := h
    simp only [jsonPlainChar, Bool.and_eq_true, decide_eq_true_eq]
    exact ⟨⟨by omega, h1⟩, h2⟩
  refine ⟨?_, ?_, rfl, ?_⟩
  · unfold parseCredentialsString
    rw [goUnmarshalCreds_credPayload u p hcu2 hcp]
    simp [hu, hp]
  · unfold parseCredentialsString
    rw [goUnmarshalCreds_colon_none u p hu hcu]
    unfold colonFallback
    have hto : (u ++ ":" ++ p).toList = u.toList ++ ':' :: p.toList := by
      simp [String.toList, String.data_append]
    have hnc : ':' ∉ u.toList := by
      intro hmem
      have h := hcu ':' hmem
      simp [credPlainChar] at h
    rw [hto, splitN2Colon_plain u.toList p.toList hnc]
    have hun : u.toList ≠ [] := fun h => hu (string_of_toList_eq_nil u h)
    have hpn : p.toList ≠ [] := fun h => hp (string_of_toList_eq_nil p h)
    show (if u.toList ≠ [] ∧ p.toList ≠ [] then
        Except.ok (AuthConfig.mk (String.mk u.toList) (String.mk p.toList) "")
      else Except.error invalidCredsMsg)
      = Except.ok (AuthConfig.mk u p "")
    rw [if_pos ⟨hun, hpn⟩, string_mk_toList, string_mk_toList]
  · intro s h1 h2
    have hfb : colonFallback s = .error invalidCredsMsg := by
      unfold colonFallback
      cases hs2 : splitN2Colon s.toList with
      | some ab =>
        obtain ⟨a, b⟩ := ab
        have hcond2 : ¬ (a ≠ [] ∧ b ≠ []) := by
          have hor2 := h2 a b hs2
          tauto
        show (if a ≠ [] ∧ b ≠ [] then
            Except.ok (AuthConfig.mk (String.mk a) (String.mk b) "")
          else Except.error invalidCredsMsg) = Except.error invalidCredsMsg
        rw [if_neg hcond2]
      | none => rfl
    unfold parseCredentialsString
    cases hg : goUnmarshalCreds s with
    | some up =>
      obtain ⟨u2, p2⟩ := up
      have hcond : ¬ (u2 ≠ "" ∧ p2 ≠ "") := by
        have hor := h1 u2 p2 hg
        tauto
      show (if u2 ≠ "" ∧ p2 ≠ "" then
          Except.ok (AuthConfig.mk u2 p2 "")
        else colonFallback s) = Except.error invalidCredsMsg
      rw [if_neg hcond, hfb]
    | none => exact hfb

/-- Witness for C7 (amended) at `u=user`, `p=pass`: both payload formats parse to the
same credential and the header renders over base64 of `user:pass`. -/
theorem C7_credential_formats_witness :
    parseCredentialsString (jsonCredPayload "user" "pass")
      = .ok { username := "user", password := "pass", auth := "" }
  ∧ parseCredentialsString ("user" ++ ":" ++ "pass")
      = .ok { username := "user", password := "pass", auth := "" }
  ∧ getHTTPAuthHeader (some { username := "user", password := "pass", auth := "" })
      = "Basic " ++ base64EncodeStd (("user" ++ ":" ++ "pass").toUTF8.toList) :=
  ⟨(C7_credential_formats_amended "user" "pass" (by decide) (by decide)
      (List.all_eq_true.mp (by decide)) (List.all_eq_true.mp (by decide))).1,
   (C7_credential_formats_amended "user" "pass" (by decide) (by decide)
      (List.all_eq_true.mp (by decide)) (List.all_eq_true.mp (by decide))).2.1,
   (C7_credential_formats_amended "user" "pass" (by decide) (by decide)
      (List.all_eq_true.mp (by decide)) (List.all_eq_true.mp (by decide))).2.2.1⟩

end TFProvider
